import Mathlib

/-!
Verification of the reconciliation-engine store (`cmd/db.go`) of the
nginx-proxy-load-balancer repository, as a shallow embedding.

Machine integers and timestamps are modelled as `Nat`; the SQLite database is
an explicit record of row lists; fallible Go functions return `Except DbErr`.
External collaborators (the filesystem read in `getFileContent`, the TOML
codec of the BurntSushi library) are parameters of the embedded functions.
Parts of the repository that the claims need but that are not store code in
`cmd/db.go` (the `ServiceConfig` and `FilePathAndInfo` types, the Reconciler
orchestration, the file-level flag update) are modelled from the spec and say
so in their doc comments.
-/

/-- Error taxonomy of the core (spec §7). Go error values are opaque here. -/
inductive DbErr where
  | constraintViolation
  | decodeError
  | encodeFailed
  | ioFailed
  | notFound
deriving DecidableEq, Repr

/-- Modelled from the spec: a service definition (glossary: "domain, backend,
TLS requirement"); the Go type `ServiceConfig` is declared outside the store
source file. -/
structure ServiceConfig where
  domain : String
  backend : String
  tls : Bool
deriving DecidableEq, Repr

/-- Modelled from the spec: the scan-event descriptor `{path, name, modTime}`
(spec §6); the Go type `FilePathAndInfo` is declared outside the store source
file. -/
structure FilePathAndInfo where
  path : String
  name : String
  modTime : Nat
deriving DecidableEq, Repr

/-- A row of the `files` table (`createTables`, db.go:33-40). -/
structure FileRow where
  id : Nat
  path : String
  name : String
  content : String
  is_configured : Bool
  last_modified : Nat
deriving DecidableEq, Repr

/-- A row of the `services` table (`createTables`, db.go:53-60). -/
structure ServiceRow where
  id : Nat
  file_id : Option Nat
  name : String
  content : String
  state : String
  last_modified : Nat
deriving DecidableEq, Repr

/-- A row of the `nginx_config_files` table (`createTables`, db.go:65-71). -/
structure ArtifactRow where
  id : Nat
  service_id : Option Nat
  type : String
  path : String
  last_modified : Nat
deriving DecidableEq, Repr

/-- The store: the three tables plus the integer-primary-key allocators. -/
structure DB where
  files : List FileRow
  services : List ServiceRow
  artifacts : List ArtifactRow
  nextFileId : Nat
  nextServiceId : Nat
deriving DecidableEq, Repr

/-- db.go:20. -/
def stateNotConfigured : String := "not configured"

/-- db.go:21. -/
def stateToConfigureHttps : String := "to configure https"

/-- db.go:22. -/
def stateToDisableHttp : String := "to disable http"

/-- db.go:23. -/
def stateConfigured : String := "configured"

/-- `INSERT INTO files`: the `path TEXT NOT NULL UNIQUE` constraint
(db.go:35) makes the insert fail when the path is already present. -/
def insertFile (db : DB) (f : FileRow) : Except DbErr DB :=
  if db.files.any (fun r => r.path == f.path) then
    Except.error DbErr.constraintViolation
  else
    Except.ok { db with files := db.files ++ [f], nextFileId := db.nextFileId + 1 }

/-- `DELETE FROM services WHERE id = ?` under the declared referential
action of `nginx_config_files.service_id`: `ON DELETE SET NULL`
(db.go:67). The artifact rows are kept; only their reference is nulled. -/
def deleteService (db : DB) (sid : Nat) : DB :=
  let g : ArtifactRow → ArtifactRow :=
    fun a => if a.service_id = some sid then { a with service_id := none } else a
  { db with
    services := db.services.filter (fun s => s.id ≠ sid)
    artifacts := db.artifacts.map g }

/-- `DELETE FROM files WHERE id = ?` under the declared referential actions:
`services.file_id` is `ON DELETE CASCADE` (db.go:55), so the service rows of
the file are deleted with it, and the cascaded service deletions in turn
trigger `nginx_config_files.service_id ... ON DELETE SET NULL` (db.go:67). -/
def deleteFile (db : DB) (fid : Nat) : DB :=
  let g : ArtifactRow → ArtifactRow :=
    fun a =>
      if (db.services.filter (fun s => s.file_id = some fid)).any
          (fun s => a.service_id = some s.id)
      then { a with service_id := none } else a
  { db with
    files := db.files.filter (fun r => r.id ≠ fid)
    services := db.services.filter (fun s => s.file_id ≠ some fid)
    artifacts := db.artifacts.map g }

/-- `SELECT * FROM files WHERE path = ?`: lookup used by the Reconciler
(spec §4.4 step 1). -/
def findFileByPath (db : DB) (path : String) : Option FileRow :=
  db.files.find? (fun r => r.path == path)

/-- Go `filepath.Ext` scanned from the end of the (reversed) character list:
stops empty at a path separator, and yields the suffix from the final dot.
The accumulator carries the characters already passed, in forward order. -/
def extRevAux : List Char → List Char → List Char
  | [], _ => []
  | c :: cs, acc =>
    if c = '/' then []
    else if c = '.' then '.' :: acc
    else extRevAux cs (c :: acc)

/-- Go `filepath.Ext(s)`: the suffix beginning at the final dot in the final
slash-separated element of `s`, empty if there is none. -/
def filepathExt (s : String) : String :=
  ⟨extRevAux s.data.reverse []⟩

/-- Go `strings.TrimSuffix(s, suf)`: drop `suf` from the end of `s` when it
is a suffix, otherwise return `s` unchanged. -/
def trimSuffix (s suf : String) : String :=
  if s.data.reverse.take suf.data.length = suf.data.reverse then
    ⟨s.data.take (s.data.length - suf.data.length)⟩
  else s

/-- The `models.File` value `addFile` builds (db.go:107-113): the name
strips the extension from the scan name exactly as the Go code does, the
"fully applied" flag starts false, and the id is the next primary key. -/
def fileRowFor (db : DB) (content : String) (file : FilePathAndInfo) : FileRow :=
  { id := db.nextFileId
    path := file.path
    name := trimSuffix file.name (filepathExt file.name)
    content := content
    is_configured := false
    last_modified := file.modTime }

/-- `addFile` (db.go:100-122). `getFileContent` performs external I/O
(os.Open + ReadAll), so it is passed in as `readFile`; the insert is subject
to the unique path constraint. -/
def addFile (readFile : String → Except DbErr String) (db : DB)
    (file : FilePathAndInfo) : Except DbErr DB :=
  match readFile file.path with
  | Except.error e => Except.error e
  | Except.ok content => insertFile db (fileRowFor db content file)

/-- The three field mutations `updateFile` performs on the fetched row
(db.go:131-133): new content, "fully applied" reset to false, new
modification time. -/
def updatedRow (oldFile : FileRow) (content : String) (lm : Nat) : FileRow :=
  { oldFile with
    content := content
    is_configured := false
    last_modified := lm }

/-- The `UPDATE ... WHERE id = ?` the Go `oldFile.Update` call issues: the
row with the old row's id is replaced by the mutated row, every other row is
untouched. -/
def updEdit (oldFile : FileRow) (content : String) (lm : Nat) : FileRow → FileRow :=
  fun r => if r.id = oldFile.id then updatedRow oldFile content lm else r

/-- `updateFile` (db.go:124-141). The Go code mutates the `Content`,
`IsConfigured` and `LastModified` fields of the fetched row and issues an
UPDATE of the row by id; the mutated row is also returned here because the
Go caller keeps the mutated pointer. -/
def updateFile (readFile : String → Except DbErr String) (db : DB)
    (oldFile : FileRow) (file : FilePathAndInfo) : Except DbErr (DB × FileRow) :=
  match readFile file.path with
  | Except.error e => Except.error e
  | Except.ok content =>
      Except.ok ({ db with files := db.files.map (updEdit oldFile content file.modTime) },
        updatedRow oldFile content file.modTime)

/-- The service row built in the loop body of `configureServices`
(db.go:157-162): name is the decoded key, content is whatever the TOML
encoder left in the buffer (its error return is discarded, exactly as in the
source, which ignores the result of `encoder.Encode`), state starts
`NotConfigured`, and the timestamp is inherited from the owning file. -/
def serviceRowFor (enc : ServiceConfig → String × Option DbErr) (file : FileRow)
    (sid : Nat) (kv : String × ServiceConfig) : ServiceRow :=
  { id := sid
    file_id := some file.id
    name := kv.1
    content := (enc kv.2).1
    state := stateNotConfigured
    last_modified := file.last_modified }

/-- `file.AddServices(ctx, db, true, service)` (db.go:165): inserts a fresh
service row with its owning-file reference set; the `services` table has no
unique constraint, so the insert itself cannot fail. -/
def insertService (db : DB) (file : FileRow)
    (enc : ServiceConfig → String × Option DbErr)
    (kv : String × ServiceConfig) : DB :=
  { db with
    services := db.services ++ [serviceRowFor enc file db.nextServiceId kv]
    nextServiceId := db.nextServiceId + 1 }

/-- `configureServices` (db.go:143-173). `toml.Decode` and `toml.NewEncoder`
are external library calls, passed in as `dec` and `enc`; the decoded Go map
is modelled as an association list (Go map iteration order is arbitrary, and
nothing here depends on it). On decode failure the error is returned before
any row is touched; then one row is inserted per decoded definition, and the
old rows of the file are deliberately left alone ("Just add a new
relationship. The cleaner cleans the old ones", db.go:164). -/
def configureServices (dec : String → Except DbErr (List (String × ServiceConfig)))
    (enc : ServiceConfig → String × Option DbErr)
    (db : DB) (file : FileRow) : Except DbErr DB :=
  match dec file.content with
  | Except.error e => Except.error e
  | Except.ok configs =>
      Except.ok (configs.foldl (fun db kv => insertService db file enc kv) db)

/-- The list of fresh service rows `configureServices` produces for the
decoded definitions, with ids drawn from the allocator in order. -/
def newServicesFor (enc : ServiceConfig → String × Option DbErr) (file : FileRow) :
    Nat → List (String × ServiceConfig) → List ServiceRow
  | _, [] => []
  | sid, kv :: rest => serviceRowFor enc file sid kv :: newServicesFor enc file (sid + 1) rest

/-- Modelled from the spec: step 7 of the Reconciler (§4.4) marks the File
"fully applied" after its services were persisted; the code doing this lives
outside the store source file. An UPDATE of the file row by id. -/
def markFullyApplied (db : DB) (fid : Nat) : DB :=
  let g : FileRow → FileRow :=
    fun r => if r.id = fid then { r with is_configured := true } else r
  { db with files := db.files.map g }

/-- Modelled from the spec: the Reconciler pass over one scanned file
(§4.4 steps 1-7); the orchestration code lives outside the store source
file, while the store calls it makes (`addFile`, `updateFile`,
`configureServices`) are the embeddings above. The pair returned is the
database state as committed so far together with the error, if any, that
abandoned the pass: an error after `updateFile` leaves the update committed,
as it is in Go. -/
def reconcile (readFile : String → Except DbErr String)
    (dec : String → Except DbErr (List (String × ServiceConfig)))
    (enc : ServiceConfig → String × Option DbErr)
    (db : DB) (f : FilePathAndInfo) : DB × Option DbErr :=
  match findFileByPath db f.path with
  | none =>
      match addFile readFile db f with
      | Except.error e => (db, some e)
      | Except.ok db1 =>
          match findFileByPath db1 f.path with
          | none => (db1, some DbErr.notFound)
          | some file =>
              match configureServices dec enc db1 file with
              | Except.error e => (db1, some e)
              | Except.ok db2 => (markFullyApplied db2 file.id, none)
  | some old =>
      if old.last_modified = f.modTime then (db, none)
      else
        match updateFile readFile db old f with
        | Except.error e => (db, some e)
        | Except.ok (db1, newFile) =>
            match configureServices dec enc db1 newFile with
            | Except.error e => (db1, some e)
            | Except.ok db2 => (markFullyApplied db2 newFile.id, none)

/-- A scanned file is New (no stored row for its path) or Modified (stored
row with a different modification time), spec §4.4 steps 2-3. -/
def NewOrModified (db : DB) (f : FilePathAndInfo) : Prop :=
  findFileByPath db f.path = none ∨
    ∃ old, findFileByPath db f.path = some old ∧ old.last_modified ≠ f.modTime

/-- Escaping for the canonical serialization of string values: a backslash
before every backslash or double quote. -/
def escChars : List Char → List Char
  | [] => []
  | c :: cs =>
    if c = '\\' ∨ c = '"' then '\\' :: c :: escChars cs else c :: escChars cs

/-- Reads an escaped string value up to and including its closing double
quote, returning the unescaped value and the remaining input. -/
def unescChars : List Char → Option (List Char × List Char)
  | [] => none
  | c :: cs =>
    if c = '\\' then
      match cs with
      | [] => none
      | d :: ds =>
        match unescChars ds with
        | none => none
        | some p => some (d :: p.1, p.2)
    else if c = '"' then some ([], cs)
    else
      match unescChars cs with
      | none => none
      | some p => some (c :: p.1, p.2)

/-- Consumes an expected literal prefix, returning the rest of the input. -/
def dropLit : List Char → List Char → Option (List Char)
  | [], rest => some rest
  | _ :: _, [] => none
  | l :: ls, c :: cs => if c = l then dropLit ls cs else none

/-- Modelled from the spec: the canonical text of one service definition
(§4.2 `Canonicalize`): deterministic, fixed key order. The Go codec
(BurntSushi TOML over the `ServiceConfig` struct) is outside the store
source file; this canonical form keeps its contract — stable key ordering,
byte-identical output for equal definitions. -/
def canonChars (c : ServiceConfig) : List Char :=
  "backend=\"".data ++
    (escChars c.backend.data ++ '"' ::
      (";domain=\"".data ++
        (escChars c.domain.data ++ '"' ::
          (";tls=".data ++ (if c.tls then "true".data else "false".data)))))

/-- Modelled from the spec: `Canonicalize(definition) -> text` (§4.2). -/
def canonicalize (c : ServiceConfig) : String :=
  ⟨canonChars c⟩

/-- Parses one canonical service definition, returning it together with the
remaining input. -/
def decodeDefChars (l : List Char) : Option (ServiceConfig × List Char) :=
  match dropLit "backend=\"".data l with
  | none => none
  | some r1 =>
    match unescChars r1 with
    | none => none
    | some (b, r2) =>
      match dropLit ";domain=\"".data r2 with
      | none => none
      | some r3 =>
        match unescChars r3 with
        | none => none
        | some (d, r4) =>
          match dropLit ";tls=".data r4 with
          | none => none
          | some r5 =>
            match dropLit "true".data r5 with
            | some r6 => some ({ domain := ⟨d⟩, backend := ⟨b⟩, tls := true }, r6)
            | none =>
              match dropLit "false".data r5 with
              | some r6 => some ({ domain := ⟨d⟩, backend := ⟨b⟩, tls := false }, r6)
              | none => none

/-- Modelled from the spec: decoding a single canonicalized definition back
to a definition value (§8 round trip); fails on malformed or trailing
input. -/
def decodeDef (s : String) : Option ServiceConfig :=
  match decodeDefChars s.data with
  | some (c, []) => some c
  | _ => none

/-! Concrete fixtures used by witnesses and counterexamples. -/

/-- A sample decoded definition. -/
def cfgA : ServiceConfig :=
  { domain := "a.example.com", backend := "127.0.0.1:8080", tls := true }

/-- A decoder that accepts exactly the payload "payload" with one
definition, as a concrete stand-in for the external TOML decoder. -/
def decSample : String → Except DbErr (List (String × ServiceConfig)) :=
  fun s => if s = "payload" then Except.ok [("svc", cfgA)] else Except.error DbErr.decodeError

/-- An encoder that canonicalizes and reports no error. -/
def encA : ServiceConfig → String × Option DbErr :=
  fun c => (canonicalize c, none)

/-- An encoder whose every call fails, leaving an empty buffer: the shape of
a failing `toml.Encoder.Encode` call. -/
def encDiscarding : ServiceConfig → String × Option DbErr :=
  fun _ => ("", some DbErr.encodeFailed)

/-- A file read that always succeeds with the payload "payload". -/
def readSample : String → Except DbErr String :=
  fun _ => Except.ok "payload"

/-- A file read that always fails. -/
def readFailing : String → Except DbErr String :=
  fun _ => Except.error DbErr.decodeError

/-- A sample stored file row. -/
def fileA : FileRow :=
  { id := 1, path := "/etc/proxy/sites.toml", name := "sites",
    content := "payload", is_configured := false, last_modified := 5 }

/-- A sample service row owned by `fileA`. -/
def svcA : ServiceRow :=
  { id := 1, file_id := some 1, name := "svc", content := "x",
    state := stateNotConfigured, last_modified := 5 }

/-- A sample artifact row owned by `svcA`. -/
def artA : ArtifactRow :=
  { id := 1, service_id := some 1, type := "https",
    path := "/etc/nginx/conf.d/svc.conf", last_modified := 5 }

/-- A store holding just `fileA`. -/
def dbA : DB :=
  { files := [fileA], services := [], artifacts := [],
    nextFileId := 2, nextServiceId := 1 }

/-- A store holding `fileA`, its service `svcA` and the artifact `artA`. -/
def dbB : DB :=
  { files := [fileA], services := [svcA], artifacts := [artA],
    nextFileId := 2, nextServiceId := 2 }

/-! Helper lemmas about the embedded operations. -/

theorem unesc_esc (s : List Char) : ∀ rest : List Char,
    unescChars (escChars s ++ '"' :: rest) = some (s, rest) := by
  induction s with
  | nil =>
    intro rest
    rw [escChars, List.nil_append, unescChars.eq_def]
    simp
  | cons a as ih =>
    intro rest
    by_cases h : a = '\\' ∨ a = '"'
    · rw [escChars, if_pos h]
      rw [List.cons_append, List.cons_append, unescChars.eq_def]
      simp [ih]
    · push_neg at h
      rw [escChars, if_neg (by simp [h.1, h.2]), List.cons_append, unescChars.eq_def]
      simp [h.1, h.2, ih]

theorem dropLit_append (lit : List Char) : ∀ rest : List Char,
    dropLit lit (lit ++ rest) = some rest := by
  induction lit with
  | nil => intro rest; rw [dropLit, List.nil_append]
  | cons l ls ih => intro rest; rw [List.cons_append, dropLit]; simp [ih]

theorem decodeDefChars_canon (c : ServiceConfig) (rest : List Char) :
    decodeDefChars (canonChars c ++ rest) = some (c, rest) := by
  obtain ⟨d, b, t⟩ := c
  rw [canonChars, decodeDefChars]
  cases t <;>
    simp [List.append_assoc, dropLit_append, unesc_esc, dropLit]

theorem foldl_insertService (enc : ServiceConfig → String × Option DbErr)
    (file : FileRow) :
    ∀ (cfgs : List (String × ServiceConfig)) (db : DB),
      cfgs.foldl (fun db kv => insertService db file enc kv) db
        = { db with
            services := db.services ++ newServicesFor enc file db.nextServiceId cfgs,
            nextServiceId := db.nextServiceId + cfgs.length } := by
  intro cfgs
  induction cfgs with
  | nil => intro db; simp [newServicesFor]
  | cons kv rest ih =>
    intro db
    rw [List.foldl_cons, ih]
    simp [insertService, newServicesFor, List.append_assoc]
    omega

theorem configureServices_ok (dec : String → Except DbErr (List (String × ServiceConfig)))
    (enc : ServiceConfig → String × Option DbErr) (db : DB) (file : FileRow)
    (cfgs : List (String × ServiceConfig)) (h : dec file.content = Except.ok cfgs) :
    configureServices dec enc db file
      = Except.ok { db with
          services := db.services ++ newServicesFor enc file db.nextServiceId cfgs,
          nextServiceId := db.nextServiceId + cfgs.length } := by
  rw [configureServices, h]
  simp only [foldl_insertService]

theorem configureServices_err (dec : String → Except DbErr (List (String × ServiceConfig)))
    (enc : ServiceConfig → String × Option DbErr) (db : DB) (file : FileRow)
    (e : DbErr) (h : dec file.content = Except.error e) :
    configureServices dec enc db file = Except.error e := by
  rw [configureServices, h]

theorem newServicesFor_length (enc : ServiceConfig → String × Option DbErr)
    (file : FileRow) : ∀ (sid : Nat) (cfgs : List (String × ServiceConfig)),
    (newServicesFor enc file sid cfgs).length = cfgs.length := by
  intro sid cfgs
  induction cfgs generalizing sid with
  | nil => rw [newServicesFor]; rfl
  | cons kv rest ih => rw [newServicesFor]; simp [ih]

theorem mem_newServicesFor (enc : ServiceConfig → String × Option DbErr)
    (file : FileRow) : ∀ (sid : Nat) (cfgs : List (String × ServiceConfig))
    (s : ServiceRow), s ∈ newServicesFor enc file sid cfgs →
      s.state = stateNotConfigured ∧ s.last_modified = file.last_modified ∧
        s.file_id = some file.id := by
  intro sid cfgs
  induction cfgs generalizing sid with
  | nil => intro s hs; rw [newServicesFor] at hs; cases hs
  | cons kv rest ih =>
    intro s hs
    rw [newServicesFor] at hs
    rcases List.mem_cons.mp hs with h | h
    · subst h; exact ⟨rfl, rfl, rfl⟩
    · exact ih (sid + 1) s h

theorem find?_map_pathPres (g : FileRow → FileRow) (hg : ∀ r, (g r).path = r.path)
    (path : String) : ∀ (l : List FileRow) (fr : FileRow),
    l.find? (fun r => r.path == path) = some fr →
    (l.map g).find? (fun r => r.path == path) = some (g fr) := by
  intro l
  induction l with
  | nil => intro fr h; simp [List.find?] at h
  | cons a as ih =>
    intro fr h
    by_cases hp : a.path = path
    · rw [List.find?_cons_of_pos _ (by simp [hp])] at h
      injection h with h
      subst h
      rw [List.map_cons, List.find?_cons_of_pos _ (by simp [hg, hp])]
    · rw [List.find?_cons_of_neg _ (by simp [hp])] at h
      rw [List.map_cons, List.find?_cons_of_neg _ (by simp [hg, hp])]
      exact ih fr h

theorem find?_map_edit (path : String) (old nw : FileRow) (hnew : nw.path = path) :
    ∀ l : List FileRow,
    l.find? (fun r => r.path == path) = some old →
    (l.map (fun r => if r.id = old.id then nw else r)).find? (fun r => r.path == path)
      = some nw := by
  intro l
  induction l with
  | nil => intro h; simp [List.find?] at h
  | cons a as ih =>
    intro h
    by_cases hp : a.path = path
    · rw [List.find?_cons_of_pos _ (by simp [hp])] at h
      injection h with h
      subst h
      rw [List.map_cons]
      simp only [if_pos rfl]
      exact List.find?_cons_of_pos _ (by simp [hnew])
    · rw [List.find?_cons_of_neg _ (by simp [hp])] at h
      rw [List.map_cons]
      by_cases hid : a.id = old.id
      · simp only [if_pos hid]
        exact List.find?_cons_of_pos _ (by simp [hnew])
      · simp only [if_neg hid]
        rw [List.find?_cons_of_neg _ (by simp [hp])]
        exact ih h

theorem find?_append_one (path : String) (x : FileRow) (hx : x.path = path) :
    ∀ l : List FileRow, l.find? (fun r => r.path == path) = none →
    (l ++ [x]).find? (fun r => r.path == path) = some x := by
  intro l
  induction l with
  | nil =>
    intro _
    rw [List.nil_append]
    exact List.find?_cons_of_pos _ (by simp [hx])
  | cons a as ih =>
    intro h
    rw [List.find?_eq_none] at h
    have ha : ¬ a.path = path := by
      have := h a (List.mem_cons_self a as)
      simpa using this
    rw [List.cons_append, List.find?_cons_of_neg _ (by simp [ha])]
    apply ih
    rw [List.find?_eq_none]
    intro y hy
    exact h y (List.mem_cons_of_mem a hy)

theorem updateFile_ok (readFile : String → Except DbErr String) (db : DB)
    (oldFile : FileRow) (f : FilePathAndInfo) (content : String)
    (h : readFile f.path = Except.ok content) :
    updateFile readFile db oldFile f = Except.ok
      ({ db with files := db.files.map (updEdit oldFile content f.modTime) },
       updatedRow oldFile content f.modTime) := by
  rw [updateFile, h]

/-- C10: for every decodable definition `d`, decoding the canonicalized text
of `d` yields `d` again; `canonicalize` is a pure function, so two equal
definitions produce byte-identical stored text by congruence. -/
theorem C10_canonicalize_roundtrip (c : ServiceConfig) :
    decodeDef (canonicalize c) = some c := by
  have h := decodeDefChars_canon c []
  rw [List.append_nil] at h
  rw [decodeDef, canonicalize]
  simp only [h]

/-- C9: deleting a Service row preserves every ConfigArtifact row: the count
of artifact rows is unchanged, rows that pointed at the deleted service
remain with their owning-service reference set to null, rows that pointed
elsewhere are untouched, and only service rows with the deleted id leave the
services table. -/
theorem C9_service_delete_nulls_artifact_refs (db : DB) (sid : Nat) :
    ((deleteService db sid).artifacts.length = db.artifacts.length)
    ∧ (∀ a ∈ db.artifacts, a.service_id = some sid →
        { a with service_id := none } ∈ (deleteService db sid).artifacts)
    ∧ (∀ a ∈ db.artifacts, a.service_id ≠ some sid →
        a ∈ (deleteService db sid).artifacts)
    ∧ (∀ s ∈ (deleteService db sid).services, s.id ≠ sid)
    ∧ (∀ s ∈ db.services, s.id ≠ sid → s ∈ (deleteService db sid).services) := by
  refine ⟨by simp [deleteService], ?_, ?_, ?_, ?_⟩
  · intro a ha h
    simp only [deleteService, List.mem_map]
    exact ⟨a, ha, by rw [if_pos h]⟩
  · intro a ha h
    simp only [deleteService, List.mem_map]
    exact ⟨a, ha, by rw [if_neg h]⟩
  · intro s hs
    simp only [deleteService, List.mem_filter, decide_eq_true_eq] at hs
    exact hs.2
  · intro s hs h
    simp only [deleteService, List.mem_filter, decide_eq_true_eq]
    exact ⟨hs, h⟩

theorem C9_witness :
    (artA ∈ dbB.artifacts ∧ artA.service_id = some 1)
    ∧ { artA with service_id := none } ∈ (deleteService dbB 1).artifacts :=
  ⟨⟨by decide, by decide⟩,
    (C9_service_delete_nulls_artifact_refs dbB 1).2.1 artA (by decide) (by decide)⟩

/-- C6: for every stored file row and scan event whose content read
succeeds, `updateFile` stores the new content and modification time on the
file's row, resets its "fully applied" flag to false, keeps its identity and
path, and touches nothing else in the store. -/
theorem C6_update_resets_flag (readFile : String → Except DbErr String)
    (db : DB) (oldFile : FileRow) (f : FilePathAndInfo) (content : String)
    (h : readFile f.path = Except.ok content) :
    ∃ db' fr, updateFile readFile db oldFile f = Except.ok (db', fr)
      ∧ fr.content = content ∧ fr.last_modified = f.modTime
      ∧ fr.is_configured = false ∧ fr.path = oldFile.path ∧ fr.id = oldFile.id
      ∧ db'.files = db.files.map (updEdit oldFile content f.modTime)
      ∧ db'.services = db.services ∧ db'.artifacts = db.artifacts :=
  ⟨_, _, updateFile_ok readFile db oldFile f content h,
    rfl, rfl, rfl, rfl, rfl, rfl, rfl, rfl⟩

theorem C6_update_resets_flag_witness :
    (readSample { path := "/etc/proxy/sites.toml", name := "sites.toml", modTime := 9 : FilePathAndInfo }.path
        = Except.ok "payload")
    ∧ ∃ db' fr, updateFile readSample dbA fileA
          { path := "/etc/proxy/sites.toml", name := "sites.toml", modTime := 9 } = Except.ok (db', fr)
        ∧ fr.content = "payload" ∧ fr.last_modified = 9
        ∧ fr.is_configured = false ∧ fr.path = fileA.path ∧ fr.id = fileA.id
        ∧ db'.files = dbA.files.map (updEdit fileA "payload" 9)
        ∧ db'.services = dbA.services ∧ db'.artifacts = dbA.artifacts :=
  ⟨rfl, C6_update_resets_flag readSample dbA fileA
    { path := "/etc/proxy/sites.toml", name := "sites.toml", modTime := 9 } "payload" rfl⟩

/-- C4: for every file row and every decoded definition list,
`configureServices` appends exactly one fresh Service row per definition,
leaves every previously existing Service row present and unmodified (no
delete, no update of the file's prior rows in the same operation), and does
not touch the files or artifacts tables. -/
theorem C4_insert_fresh_preserve_old
    (dec : String → Except DbErr (List (String × ServiceConfig)))
    (enc : ServiceConfig → String × Option DbErr) (db : DB) (file : FileRow)
    (cfgs : List (String × ServiceConfig)) (h : dec file.content = Except.ok cfgs) :
    ∃ db', configureServices dec enc db file = Except.ok db'
      ∧ db'.services = db.services ++ newServicesFor enc file db.nextServiceId cfgs
      ∧ (newServicesFor enc file db.nextServiceId cfgs).length = cfgs.length
      ∧ (∀ s ∈ db.services, s ∈ db'.services)
      ∧ db'.files = db.files ∧ db'.artifacts = db.artifacts :=
  ⟨_, configureServices_ok dec enc db file cfgs h, rfl,
    newServicesFor_length enc file db.nextServiceId cfgs,
    fun _ hs => List.mem_append_left _ hs, rfl, rfl⟩

theorem C4_witness :
    (decSample fileA.content = Except.ok [("svc", cfgA)])
    ∧ ∃ db', configureServices decSample encA dbA fileA = Except.ok db'
      ∧ db'.services = dbA.services ++ newServicesFor encA fileA dbA.nextServiceId [("svc", cfgA)]
      ∧ (newServicesFor encA fileA dbA.nextServiceId [("svc", cfgA)]).length = [("svc", cfgA)].length
      ∧ (∀ s ∈ dbA.services, s ∈ db'.services)
      ∧ db'.files = dbA.files ∧ db'.artifacts = dbA.artifacts :=
  ⟨rfl, C4_insert_fresh_preserve_old decSample encA dbA fileA [("svc", cfgA)] rfl⟩

/-- C7: every Service row created from a freshly decoded definition is
inserted in state `NotConfigured`, carries the last-modified timestamp
inherited from its owning file, and references that file. -/
theorem C7_fresh_rows_initial_state
    (dec : String → Except DbErr (List (String × ServiceConfig)))
    (enc : ServiceConfig → String × Option DbErr) (db : DB) (file : FileRow)
    (cfgs : List (String × ServiceConfig)) (h : dec file.content = Except.ok cfgs) :
    ∃ db', configureServices dec enc db file = Except.ok db'
      ∧ db'.services = db.services ++ newServicesFor enc file db.nextServiceId cfgs
      ∧ ∀ s ∈ newServicesFor enc file db.nextServiceId cfgs,
          s.state = stateNotConfigured ∧ s.last_modified = file.last_modified ∧
            s.file_id = some file.id :=
  ⟨_, configureServices_ok dec enc db file cfgs h, rfl,
    fun s hs => mem_newServicesFor enc file db.nextServiceId cfgs s hs⟩

theorem C7_witness :
    (decSample fileA.content = Except.ok [("svc", cfgA)])
    ∧ ∃ db', configureServices decSample encA dbA fileA = Except.ok db'
      ∧ db'.services = dbA.services ++ newServicesFor encA fileA dbA.nextServiceId [("svc", cfgA)]
      ∧ ∀ s ∈ newServicesFor encA fileA dbA.nextServiceId [("svc", cfgA)],
          s.state = stateNotConfigured ∧ s.last_modified = fileA.last_modified ∧
            s.file_id = some fileA.id :=
  ⟨rfl, C7_fresh_rows_initial_state decSample encA dbA fileA [("svc", cfgA)] rfl⟩

/-- C1: the claim (and the source's own comment, db.go:50-52) says deleting
a File leaves its Service rows in place with a nulled owning-file reference;
evaluating the embedded schema at a concrete store shows the declared
`ON DELETE CASCADE` (db.go:55) deletes the Service row outright instead:
after deleting file 1, the services table is empty — no row with a nulled
reference survives for the Cleaner to reap. -/
theorem C1_file_delete_cascades_eval :
    deleteFile dbB 1
      = { files := [], services := [],
          artifacts := [{ artA with service_id := none }],
          nextFileId := 2, nextServiceId := 2 }
    ∧ (deleteFile dbB 1).services.length = 0 := by
  constructor
  · rfl
  · rfl

/-- C3 fails as stated on the code: `configureServices` discards the error
value returned by the canonicalizing encoder call (db.go:155 ignores the
result of `encoder.Encode`). Here the encoder reports an error on the only
definition, yet `configureServices` returns success and persists the
partial (empty) buffer as the row's content. -/
theorem C3_encoder_error_discarded :
    configureServices decSample encDiscarding dbA fileA
      = Except.ok { dbA with
          services := [{ id := 1, file_id := some 1, name := "svc", content := "",
                         state := stateNotConfigured, last_modified := 5 }],
          nextServiceId := 2 }
    ∧ (encDiscarding cfgA).2 = some DbErr.encodeFailed := by
  constructor
  · rfl
  · rfl

/-- C3 (amended): every failing call's error in the store is propagated to
the caller — a decode failure aborts `configureServices` before any write,
and a content-read failure aborts `addFile` and `updateFile` — except the
canonicalizing encoder call inside `configureServices`, whose error value
is discarded (see the counterexample). -/
theorem C3_errors_propagate
    (dec : String → Except DbErr (List (String × ServiceConfig)))
    (enc : ServiceConfig → String × Option DbErr)
    (rf : String → Except DbErr String) (db : DB) (file : FileRow)
    (f : FilePathAndInfo) (oldFile : FileRow) (e e' : DbErr)
    (hdec : dec file.content = Except.error e)
    (hrf : rf f.path = Except.error e') :
    configureServices dec enc db file = Except.error e
    ∧ addFile rf db f = Except.error e'
    ∧ updateFile rf db oldFile f = Except.error e' := by
  refine ⟨configureServices_err dec enc db file e hdec, ?_, ?_⟩
  · rw [addFile, hrf]
  · rw [updateFile, hrf]

theorem C3_errors_propagate_witness :
    ((fun _ : String => Except.error DbErr.decodeError) fileA.content
        = Except.error (α := List (String × ServiceConfig)) DbErr.decodeError)
    ∧ (readFailing "/etc/proxy/sites.toml" = Except.error DbErr.decodeError)
    ∧ configureServices (fun _ => Except.error DbErr.decodeError) encA dbA fileA
        = Except.error DbErr.decodeError
    ∧ addFile readFailing dbA { path := "/etc/proxy/sites.toml", name := "sites.toml", modTime := 9 }
        = Except.error DbErr.decodeError
    ∧ updateFile readFailing dbA fileA { path := "/etc/proxy/sites.toml", name := "sites.toml", modTime := 9 }
        = Except.error DbErr.decodeError := by
  refine ⟨rfl, rfl, ?_⟩
  exact C3_errors_propagate (fun _ => Except.error DbErr.decodeError) encA readFailing dbA fileA
    { path := "/etc/proxy/sites.toml", name := "sites.toml", modTime := 9 } fileA
    DbErr.decodeError DbErr.decodeError rfl rfl

/-- C8: once a file row with a path exists, a second `addFile` whose scan
event carries the same path (and whose content read succeeds) fails with the
unique-path constraint violation and creates nothing; the row created by the
first call is present, untouched, in the store the second call saw. -/
theorem C8_duplicate_path (rf1 rf2 : String → Except DbErr String) (db db1 : DB)
    (f1 f2 : FilePathAndInfo) (c2 : String)
    (h1 : addFile rf1 db f1 = Except.ok db1)
    (hp : f2.path = f1.path)
    (h2 : rf2 f2.path = Except.ok c2) :
    addFile rf2 db1 f2 = Except.error DbErr.constraintViolation
    ∧ ∃ fr ∈ db1.files, fr.path = f1.path := by
  cases hread : rf1 f1.path with
  | error e =>
    simp only [addFile, hread] at h1
    exact absurd h1 (by simp)
  | ok c1 =>
    simp only [addFile, hread, insertFile] at h1
    split at h1
    · exact absurd h1 (by simp)
    · rename_i hany
      injection h1 with h1
      subst h1
      have hmem : fileRowFor db c1 f1 ∈ db.files ++ [fileRowFor db c1 f1] :=
        List.mem_append_right _ (List.mem_singleton_self _)
      constructor
      · have hcond : ((db.files ++ [fileRowFor db c1 f1]).any
            (fun r => r.path == f2.path)) = true := by
          refine List.any_eq_true.mpr ⟨fileRowFor db c1 f1, hmem, ?_⟩
          simp [fileRowFor, hp]
        simp only [addFile, h2, insertFile, fileRowFor]
        simp only [fileRowFor] at hcond
        simp [hcond]
      · exact ⟨fileRowFor db c1 f1, hmem, rfl⟩

/-- C5: when a Modified file's content fails to decode, the reconciliation
pass for it is abandoned with the decode error before any Service row is
inserted, updated or deleted: the services and artifacts tables are exactly
as before the pass, and the file's row — updated by `updateFile` just
before the decode — has its "fully applied" flag false, so the file will be
retried on the next scan. -/
theorem C5_decode_failure_aborts (rf : String → Except DbErr String)
    (dec : String → Except DbErr (List (String × ServiceConfig)))
    (enc : ServiceConfig → String × Option DbErr) (db : DB)
    (f : FilePathAndInfo) (old : FileRow) (content : String) (e : DbErr)
    (hfind : findFileByPath db f.path = some old)
    (hmod : old.last_modified ≠ f.modTime)
    (hread : rf f.path = Except.ok content)
    (hdec : dec content = Except.error e) :
    ∃ db1, reconcile rf dec enc db f = (db1, some e)
      ∧ db1.services = db.services ∧ db1.artifacts = db.artifacts
      ∧ (∃ fr, findFileByPath db1 f.path = some fr ∧ fr.is_configured = false) := by
  have hop : old.path = f.path := by
    simpa using List.find?_some hfind
  simp only [reconcile, hfind]
  rw [if_neg hmod]
  simp only [updateFile_ok rf db old f content hread]
  have hcs := configureServices_err dec enc
    { db with files := db.files.map (updEdit old content f.modTime) }
    (updatedRow old content f.modTime) e hdec
  simp only [hcs]
  refine ⟨_, rfl, rfl, rfl, ⟨updatedRow old content f.modTime, ?_, rfl⟩⟩
  rw [findFileByPath]
  have h := find?_map_edit f.path old (updatedRow old content f.modTime)
    (by simp [updatedRow, hop]) db.files hfind
  simpa [updEdit] using h

theorem C5_witness :
    (findFileByPath dbA "/etc/proxy/sites.toml" = some fileA)
    ∧ (fileA.last_modified ≠ 9)
    ∧ (readSample "/etc/proxy/sites.toml" = Except.ok "payload")
    ∧ ((fun _ : String => Except.error DbErr.decodeError) "payload"
        = Except.error (α := List (String × ServiceConfig)) DbErr.decodeError)
    ∧ ∃ db1, reconcile readSample (fun _ => Except.error DbErr.decodeError) encA dbA
          { path := "/etc/proxy/sites.toml", name := "sites.toml", modTime := 9 }
        = (db1, some DbErr.decodeError)
      ∧ db1.services = dbA.services ∧ db1.artifacts = dbA.artifacts
      ∧ (∃ fr, findFileByPath db1 "/etc/proxy/sites.toml" = some fr ∧ fr.is_configured = false) :=
  ⟨rfl, by decide, rfl, rfl,
    C5_decode_failure_aborts readSample (fun _ => Except.error DbErr.decodeError) encA dbA
      { path := "/etc/proxy/sites.toml", name := "sites.toml", modTime := 9 } fileA "payload"
      DbErr.decodeError rfl (by decide) rfl rfl⟩

/-- C2: for a New or Modified file whose content read succeeds and whose
payload decodes, the reconciliation pass ends cleanly with the file's
"fully applied" flag true and with one fresh Service row persisted per
decoded definition (appended after the pre-existing rows); the flag update
is the last step of the pass, applied to the state in which the rows are
already persisted. -/
theorem C2_fully_applied (rf : String → Except DbErr String)
    (dec : String → Except DbErr (List (String × ServiceConfig)))
    (enc : ServiceConfig → String × Option DbErr) (db : DB)
    (f : FilePathAndInfo) (content : String)
    (cfgs : List (String × ServiceConfig))
    (hread : rf f.path = Except.ok content)
    (hdec : dec content = Except.ok cfgs)
    (hnm : NewOrModified db f) :
    ∃ db' fileRow, reconcile rf dec enc db f = (db', none)
      ∧ (∃ fr, findFileByPath db' f.path = some fr ∧ fr.is_configured = true)
      ∧ db'.services = db.services ++ newServicesFor enc fileRow db.nextServiceId cfgs
      ∧ (newServicesFor enc fileRow db.nextServiceId cfgs).length = cfgs.length := by
  rcases hnm with hfind | ⟨old, hfind, hmod⟩
  · -- New file
    have hany : (db.files.any (fun r => r.path == f.path)) = false := by
      cases hv : db.files.any (fun r => r.path == f.path) with
      | false => rfl
      | true =>
        obtain ⟨x, hx, hpx⟩ := List.any_eq_true.mp hv
        rw [findFileByPath, List.find?_eq_none] at hfind
        exact absurd hpx (hfind x hx)
    have hany' : (db.files.any (fun r => r.path == (fileRowFor db content f).path)) = false := by
      simpa [fileRowFor] using hany
    simp only [reconcile, hfind]
    simp only [addFile, hread, insertFile, hany', Bool.false_eq_true, if_false]
    have hfindOld : db.files.find? (fun r => r.path == f.path) = none := hfind
    have hfind1 : findFileByPath
        { db with files := db.files ++ [fileRowFor db content f], nextFileId := db.nextFileId + 1 }
        f.path = some (fileRowFor db content f) := by
      rw [findFileByPath]
      exact find?_append_one f.path (fileRowFor db content f) (by simp [fileRowFor])
        db.files hfindOld
    have hcs := configureServices_ok dec enc
      { db with files := db.files ++ [fileRowFor db content f], nextFileId := db.nextFileId + 1 }
      (fileRowFor db content f) cfgs hdec
    simp only [hfind1, hcs]
    refine ⟨_, fileRowFor db content f, rfl, ?_,
      rfl, newServicesFor_length enc (fileRowFor db content f) db.nextServiceId cfgs⟩
    refine ⟨{ fileRowFor db content f with is_configured := true }, ?_, rfl⟩
    simp only [markFullyApplied, findFileByPath]
    have hm := find?_map_pathPres
      (fun r => if r.id = (fileRowFor db content f).id then { r with is_configured := true } else r)
      (by
        intro r
        by_cases hi : r.id = (fileRowFor db content f).id
        · simp [hi]
        · simp [hi])
      f.path (db.files ++ [fileRowFor db content f]) (fileRowFor db content f)
      (find?_append_one f.path (fileRowFor db content f) (by simp [fileRowFor]) db.files hfindOld)
    simpa using hm
  · -- Modified file
    have hop : old.path = f.path := by
      simpa using List.find?_some hfind
    simp only [reconcile, hfind]
    rw [if_neg hmod]
    simp only [updateFile_ok rf db old f content hread]
    have hcs := configureServices_ok dec enc
      { db with files := db.files.map (updEdit old content f.modTime) }
      (updatedRow old content f.modTime) cfgs hdec
    simp only [hcs]
    refine ⟨_, updatedRow old content f.modTime, rfl, ?_,
      rfl, newServicesFor_length enc (updatedRow old content f.modTime) db.nextServiceId cfgs⟩
    refine ⟨{ updatedRow old content f.modTime with is_configured := true }, ?_, rfl⟩
    simp only [markFullyApplied, findFileByPath]
    have hf1 : (db.files.map (updEdit old content f.modTime)).find?
        (fun r => r.path == f.path) = some (updatedRow old content f.modTime) := by
      have h := find?_map_edit f.path old (updatedRow old content f.modTime)
        (by simp [updatedRow, hop]) db.files hfind
      simpa [updEdit] using h
    have hm := find?_map_pathPres
      (fun r => if r.id = (updatedRow old content f.modTime).id then { r with is_configured := true } else r)
      (by
        intro r
        by_cases hi : r.id = (updatedRow old content f.modTime).id
        · simp [hi]
        · simp [hi])
      f.path (db.files.map (updEdit old content f.modTime)) (updatedRow old content f.modTime) hf1
    simpa using hm

theorem C2_witness :
    (readSample "/etc/proxy/sites.toml" = Except.ok "payload")
    ∧ (decSample "payload" = Except.ok [("svc", cfgA)])
    ∧ NewOrModified dbA { path := "/etc/proxy/sites.toml", name := "sites.toml", modTime := 9 }
    ∧ ∃ db' fileRow, reconcile readSample decSample encA dbA
          { path := "/etc/proxy/sites.toml", name := "sites.toml", modTime := 9 }
        = (db', none)
      ∧ (∃ fr, findFileByPath db' "/etc/proxy/sites.toml" = some fr ∧ fr.is_configured = true)
      ∧ db'.services = dbA.services ++ newServicesFor encA fileRow dbA.nextServiceId [("svc", cfgA)]
      ∧ (newServicesFor encA fileRow dbA.nextServiceId [("svc", cfgA)]).length
          = [("svc", cfgA)].length :=
  ⟨rfl, rfl, Or.inr ⟨fileA, rfl, by decide⟩,
    C2_fully_applied readSample decSample encA dbA
      { path := "/etc/proxy/sites.toml", name := "sites.toml", modTime := 9 }
      "payload" [("svc", cfgA)] rfl rfl (Or.inr ⟨fileA, rfl, by decide⟩)⟩

theorem C8_witness :
    (addFile readSample dbA { path := "/etc/proxy/other.toml", name := "other.toml", modTime := 3 }
      = Except.ok { files := [fileA, { id := 2, path := "/etc/proxy/other.toml", name := "other", content := "payload", is_configured := false, last_modified := 3 }], services := [], artifacts := [], nextFileId := 3, nextServiceId := 1 })
    ∧ ((({ path := "/etc/proxy/other.toml", name := "another.toml", modTime := 7 } : FilePathAndInfo)).path
        = (({ path := "/etc/proxy/other.toml", name := "other.toml", modTime := 3 } : FilePathAndInfo)).path)
    ∧ (readSample "/etc/proxy/other.toml" = Except.ok "payload")
    ∧ (addFile readSample
        { files := [fileA, { id := 2, path := "/etc/proxy/other.toml", name := "other", content := "payload", is_configured := false, last_modified := 3 }], services := [], artifacts := [], nextFileId := 3, nextServiceId := 1 }
        { path := "/etc/proxy/other.toml", name := "another.toml", modTime := 7 }
        = Except.error DbErr.constraintViolation
      ∧ ∃ fr ∈ ({ files := [fileA, { id := 2, path := "/etc/proxy/other.toml", name := "other", content := "payload", is_configured := false, last_modified := 3 }], services := [], artifacts := [], nextFileId := 3, nextServiceId := 1 } : DB).files,
          fr.path = (({ path := "/etc/proxy/other.toml", name := "other.toml", modTime := 3 } : FilePathAndInfo)).path) :=
  ⟨rfl, rfl, rfl,
    C8_duplicate_path readSample readSample dbA
      { files := [fileA, { id := 2, path := "/etc/proxy/other.toml", name := "other", content := "payload", is_configured := false, last_modified := 3 }], services := [], artifacts := [], nextFileId := 3, nextServiceId := 1 }
      { path := "/etc/proxy/other.toml", name := "other.toml", modTime := 3 }
      { path := "/etc/proxy/other.toml", name := "another.toml", modTime := 7 }
      "payload" rfl rfl rfl⟩
